import Mathlib

/-!
Verification of the guess-the-emoji puzzle backend.

The definitions below are a shallow embedding of the action handlers in
`src/unnamed/part_000` (an Astro actions module) over the tables declared in
`src/db/tables.ts`.  The database is modelled as lists of records, SQL
`select ... where` as `List.filter`, drizzle's `eq` on a nullable column as
equality with a `some` value (SQL `NULL = x` never matches), destructuring
`const [row] = ...` as `List.head?`, and `db.update ... set ... where` as a
`List.map` that rewrites the matching rows.  JavaScript truthiness tests on
optional strings/booleans are modelled explicitly (`some ""` and `some false`
are falsy).  Timestamps (`new Date()`) are modelled as `Nat` values passed in
as an explicit `now` parameter; `crypto.randomUUID()` as an explicit fresh-id
parameter.
-/

namespace GuessTheEmoji

/-! ### Answer normalizer (`normalizeAnswer`, source lines 20–26) -/

/-- Whitespace as matched by the JavaScript regex class `\s` (the same set is
used by `String.prototype.trim`): tab, LF, VT, FF, CR, space, NBSP, Ogham
space mark, the Unicode en/em-style spaces U+2000–U+200A, line separator,
paragraph separator, narrow NBSP, medium mathematical space, ideographic
space, and the BOM. -/
def isJsWhitespace (c : Char) : Bool :=
  c.toNat == 9 || c.toNat == 10 || c.toNat == 11 || c.toNat == 12 || c.toNat == 13 ||
  c.toNat == 32 || c.toNat == 160 || c.toNat == 5760 ||
  (8192 ≤ c.toNat && c.toNat ≤ 8202) ||
  c.toNat == 8232 || c.toNat == 8233 || c.toNat == 8239 || c.toNat == 8287 ||
  c.toNat == 12288 || c.toNat == 65279

/-- Letters and digits: the regex class `[\p{L}\p{N}]`, modelled on the ASCII
fragment of Unicode (code points outside ASCII are treated as neither letters
nor digits). -/
def isLetterOrDigitChar (c : Char) : Bool :=
  (48 ≤ c.toNat && c.toNat ≤ 57) || (65 ≤ c.toNat && c.toNat ≤ 90) ||
  (97 ≤ c.toNat && c.toNat ≤ 122)

/-- `value.trim()` on the character list of a string: drop leading and
trailing whitespace. -/
def trimChars (l : List Char) : List Char :=
  ((l.dropWhile isJsWhitespace).reverse.dropWhile isJsWhitespace).reverse

/-- Embedding of `normalizeAnswer` on character lists, following the source
pipeline: `.trim()`, `.toLocaleLowerCase()` (modelled by the ASCII simple case
mapping `Char.toLower`), `.replace(/\s+/g, "")` (remove every whitespace
character), `.replace(/[^\p{L}\p{N}]/gu, "")` (keep only letters and
digits). -/
def normalizeChars (l : List Char) : List Char :=
  (((trimChars l).map Char.toLower).filter (fun c => !isJsWhitespace c)).filter
    isLetterOrDigitChar

/-- `normalizeAnswer` from the source, on strings. -/
def normalizeAnswer (s : String) : String :=
  String.mk (normalizeChars s.data)

/-! ### Data model (tables declared in `src/db/tables.ts`) -/

structure Puzzle where
  id : String
  userId : Option String
  emojiSequence : String
  answer : String
  hint : Option String
  category : Option String
  difficulty : Option String
  language : Option String
  isSystem : Bool
  isActive : Bool
  createdAt : Nat
  updatedAt : Nat
deriving DecidableEq, Repr

structure Session where
  id : String
  userId : String
  mode : Option String
  createdAt : Nat
  endedAt : Option Nat
  totalQuestions : Option Nat
  correctAnswers : Option Nat
deriving DecidableEq, Repr

structure Attempt where
  id : String
  sessionId : Option String
  puzzleId : String
  userId : String
  guessText : String
  isCorrect : Bool
  createdAt : Nat
deriving DecidableEq, Repr

structure DB where
  puzzles : List Puzzle
  sessions : List Session
  attempts : List Attempt
deriving DecidableEq, Repr

inductive ActionError where
  | unauthorized
  | notFound
  | forbidden
  | badRequest
deriving DecidableEq, Repr

/-- JavaScript truthiness of an optional string: `undefined` and `""` are
falsy, every other string is truthy. -/
def truthyStr : Option String → Bool
  | none => false
  | some s => s != ""

/-- JavaScript truthiness of an optional boolean: only `true` is truthy. -/
def truthyBool : Option Bool → Bool
  | none => false
  | some b => b

/-- The database state after an action result: an error performs no write, so
the store is untouched. -/
def dbAfter {α : Type} (r : Except ActionError (α × DB)) (db : DB) : DB :=
  match r with
  | .ok (_, db') => db'
  | .error _ => db

/-- `requireUser` (source lines 6–18): the verified identity from
`context.locals`, or UNAUTHORIZED when absent. -/
def requireUser (user : Option String) : Except ActionError String :=
  match user with
  | none => .error .unauthorized
  | some uid => .ok uid

/-! ### `createPuzzle` (source lines 29–64) -/

structure CreatePuzzleInput where
  emojiSequence : String
  answer : String
  hint : Option String
  category : Option String
  difficulty : Option String
  language : Option String
deriving DecidableEq, Repr

def createPuzzle (db : DB) (user : Option String) (input : CreatePuzzleInput)
    (newId : String) (now : Nat) : Except ActionError (Puzzle × DB) :=
  match requireUser user with
  | .error e => .error e
  | .ok uid =>
      let puzzle : Puzzle :=
        { id := newId, userId := some uid, emojiSequence := input.emojiSequence,
          answer := input.answer, hint := input.hint, category := input.category,
          difficulty := input.difficulty, language := input.language,
          isSystem := false, isActive := true, createdAt := now, updatedAt := now }
      .ok (puzzle, { db with puzzles := db.puzzles ++ [puzzle] })

/-! ### `updatePuzzle` (source lines 66–123) -/

structure UpdatePuzzleInput where
  id : String
  emojiSequence : Option String
  answer : Option String
  hint : Option String
  category : Option String
  difficulty : Option String
  language : Option String
  isActive : Option Bool
deriving DecidableEq, Repr

/-- The `updates` object built on lines 92–100 is non-empty exactly when some
optional field is present in the request; this is the
`Object.keys(updates).length === 0` test of line 102. -/
def hasUpdates (input : UpdatePuzzleInput) : Bool :=
  input.emojiSequence.isSome || input.answer.isSome || input.hint.isSome ||
  input.category.isSome || input.difficulty.isSome || input.language.isSome ||
  input.isActive.isSome

/-- Apply the `updates` object to a row (`.set(updates)`, and the returned
`{ ...puzzle, ...updates }`): each column present in the request is
overwritten, absent columns keep the row's value, and `updatedAt` is refreshed
(line 109). -/
def applyPuzzleUpdates (input : UpdatePuzzleInput) (now : Nat) (p : Puzzle) : Puzzle :=
  { p with
    emojiSequence := input.emojiSequence.getD p.emojiSequence,
    answer := input.answer.getD p.answer,
    hint := input.hint.or p.hint,
    category := input.category.or p.category,
    difficulty := input.difficulty.or p.difficulty,
    language := input.language.or p.language,
    isActive := input.isActive.getD p.isActive,
    updatedAt := now }

def updatePuzzle (db : DB) (user : Option String) (input : UpdatePuzzleInput)
    (now : Nat) : Except ActionError (Puzzle × DB) :=
  match requireUser user with
  | .error e => .error e
  | .ok uid =>
      match (db.puzzles.filter (fun p => p.id == input.id && p.userId == some uid)).head? with
      | none => .error .notFound
      | some puzzle =>
          if !hasUpdates input then .error .badRequest
          else
            .ok (applyPuzzleUpdates input now puzzle,
              { db with puzzles := db.puzzles.map (fun q =>
                  if q.id == puzzle.id then applyPuzzleUpdates input now q else q) })

/-! ### `archivePuzzle` (source lines 125–154) -/

def archivePuzzle (db : DB) (user : Option String) (id : String) (now : Nat) :
    Except ActionError (String × DB) :=
  match requireUser user with
  | .error e => .error e
  | .ok uid =>
      match (db.puzzles.filter (fun p => p.id == id && p.userId == some uid)).head? with
      | none => .error .notFound
      | some puzzle =>
          if !puzzle.isActive then .error .notFound
          else
            .ok (puzzle.id,
              { db with puzzles := db.puzzles.map (fun q =>
                  if q.id == puzzle.id then { q with isActive := false, updatedAt := now }
                  else q) })

/-! ### `listMyPuzzles` (source lines 156–200) -/

structure ListMyPuzzlesInput where
  includeInactive : Option Bool
  category : Option String
  difficulty : Option String
  page : Nat
  pageSize : Nat
deriving DecidableEq, Repr

/-- The accumulated `where` clause of `listMyPuzzles` (lines 167–179): always
scoped to the caller's ownership; the `isActive` filter is added unless
`includeInactive` is truthy; category and difficulty filters are added when
their inputs are truthy strings. -/
def listWhere (uid : String) (input : ListMyPuzzlesInput) (p : Puzzle) : Bool :=
  p.userId == some uid &&
  (truthyBool input.includeInactive || p.isActive) &&
  (!truthyStr input.category || p.category == input.category) &&
  (!truthyStr input.difficulty || p.difficulty == input.difficulty)

structure ListMyPuzzlesOutput where
  items : List Puzzle
  total : Nat
  page : Nat
deriving DecidableEq, Repr

/-- Insert a puzzle into a list that is ordered by ascending `createdAt`,
before the first strictly-later element (a stable insertion). -/
def insertByCreatedAt (p : Puzzle) : List Puzzle → List Puzzle
  | [] => [p]
  | q :: t => if p.createdAt < q.createdAt then p :: q :: t else q :: insertByCreatedAt p t

/-- `orderBy(EmojiPuzzles.createdAt)` (line 189): stable ascending sort by
creation time, modelled as insertion sort. -/
def sortByCreatedAt : List Puzzle → List Puzzle
  | [] => []
  | p :: t => insertByCreatedAt p (sortByCreatedAt t)

def listMyPuzzles (db : DB) (user : Option String) (input : ListMyPuzzlesInput) :
    Except ActionError (ListMyPuzzlesOutput × DB) :=
  match requireUser user with
  | .error e => .error e
  | .ok uid =>
      let matched := db.puzzles.filter (listWhere uid input)
      let ordered := sortByCreatedAt matched
      let items := (ordered.drop ((input.page - 1) * input.pageSize)).take input.pageSize
      .ok ({ items := items, total := items.length, page := input.page }, db)

/-! ### `startPuzzleSession` (source lines 202–228) -/

structure StartSessionInput where
  mode : Option String
  totalQuestions : Option Nat
deriving DecidableEq, Repr

def startPuzzleSession (db : DB) (user : Option String) (input : StartSessionInput)
    (newId : String) (now : Nat) : Except ActionError (Session × DB) :=
  match requireUser user with
  | .error e => .error e
  | .ok uid =>
      let session : Session :=
        { id := newId, userId := uid, mode := input.mode, createdAt := now,
          endedAt := none, totalQuestions := input.totalQuestions,
          correctAnswers := none }
      .ok (session, { db with sessions := db.sessions ++ [session] })

/-! ### `endPuzzleSession` (source lines 230–276) -/

structure EndSessionInput where
  sessionId : String
  totalQuestions : Option Nat
  correctAnswers : Option Nat
deriving DecidableEq, Repr

/-- The BAD_REQUEST guard of lines 251–260: both counts supplied in the
request and `correctAnswers > totalQuestions`. -/
def endSessionInvalid (input : EndSessionInput) : Bool :=
  match input.totalQuestions, input.correctAnswers with
  | some t, some c => decide (t < c)
  | _, _ => false

def endPuzzleSession (db : DB) (user : Option String) (input : EndSessionInput)
    (now : Nat) : Except ActionError (String × DB) :=
  match requireUser user with
  | .error e => .error e
  | .ok uid =>
      match (db.sessions.filter (fun s => s.id == input.sessionId && s.userId == uid)).head? with
      | none => .error .notFound
      | some session =>
          if endSessionInvalid input then .error .badRequest
          else
            let newTotal := input.totalQuestions.or session.totalQuestions
            let newCorrect := input.correctAnswers.or session.correctAnswers
            .ok (session.id,
              { db with sessions := db.sessions.map (fun s =>
                  if s.id == session.id then
                    { s with
                      endedAt := some now,
                      totalQuestions := newTotal,
                      correctAnswers := newCorrect }
                  else s) })

/-! ### `submitPuzzleAttempt` (source lines 278–344) -/

structure SubmitAttemptInput where
  puzzleId : String
  sessionId : Option String
  guessText : String
deriving DecidableEq, Repr

/-- The FORBIDDEN guard of line 299, `puzzle.userId && puzzle.userId !==
user.id`: the stored owner is truthy (non-null and non-empty) and differs from
the caller. -/
def submitForbidden (puzzle : Puzzle) (uid : String) : Bool :=
  truthyStr puzzle.userId && puzzle.userId != some uid

/-- Session resolution inside `submitPuzzleAttempt` (source lines 306–322):
when a truthy `sessionId` is supplied, resolve it scoped to the caller's
ownership, failing with NOT_FOUND when it is missing or owned by someone
else; otherwise the attempt is untracked (`sessionId = null`). -/
def resolveSessionId (db : DB) (uid : String) (sessionId : Option String) :
    Except ActionError (Option String) :=
  if truthyStr sessionId then
    match (db.sessions.filter (fun s =>
        some s.id == sessionId && s.userId == uid)).head? with
    | none => .error .notFound
    | some session => .ok (some session.id)
  else .ok none

def submitPuzzleAttempt (db : DB) (user : Option String) (input : SubmitAttemptInput)
    (newId : String) (now : Nat) : Except ActionError (Attempt × DB) :=
  match requireUser user with
  | .error e => .error e
  | .ok uid =>
      match (db.puzzles.filter (fun p => p.id == input.puzzleId)).head? with
      | none => .error .notFound
      | some puzzle =>
          if !puzzle.isActive then .error .notFound
          else if submitForbidden puzzle uid then .error .forbidden
          else
            match resolveSessionId db uid input.sessionId with
            | .error e => .error e
            | .ok sessionId =>
                let isCorrect :=
                  normalizeAnswer input.guessText == normalizeAnswer puzzle.answer
                let attempt : Attempt :=
                  { id := newId, sessionId := sessionId, puzzleId := puzzle.id,
                    userId := uid, guessText := input.guessText,
                    isCorrect := isCorrect, createdAt := now }
                .ok (attempt, { db with attempts := db.attempts ++ [attempt] })

/-! ### Concrete fixtures used by witnesses and counterexamples -/

/-- A user-owned active puzzle (the spec's scenario puzzle). -/
def alicePuzzle : Puzzle :=
  { id := "p1", userId := some "alice", emojiSequence := "🚗💨🏁",
    answer := "fast and furious", hint := none, category := none,
    difficulty := none, language := none, isSystem := false, isActive := true,
    createdAt := 0, updatedAt := 0 }

/-- An open session with a planned total of 5 questions and no tally yet. -/
def openSession : Session :=
  { id := "s1", userId := "alice", mode := none, createdAt := 0,
    endedAt := none, totalQuestions := some 5, correctAnswers := none }

def baseDB : DB := { puzzles := [alicePuzzle], sessions := [openSession], attempts := [] }

def endedSession : Session := { openSession with endedAt := some 5 }

def endedDB : DB := { baseDB with sessions := [endedSession] }

/-- A puzzle whose stored owner is the empty string: non-null, but falsy to
JavaScript. -/
def emptyOwnerPuzzle : Puzzle := { alicePuzzle with userId := some "" }

def emptyOwnerDB : DB := { puzzles := [emptyOwnerPuzzle], sessions := [], attempts := [] }

/-- The attempt stored when "bob" submits guess "x" against the
empty-string-owned puzzle. -/
def emptyOwnerAttempt : Attempt :=
  { id := "a1", sessionId := none, puzzleId := "p1", userId := "bob",
    guessText := "x", isCorrect := false, createdAt := 3 }

def inactivePuzzle : Puzzle := { alicePuzzle with isActive := false }

def inactiveDB : DB := { puzzles := [inactivePuzzle], sessions := [], attempts := [] }

/-- An update request for `alicePuzzle` carrying no updatable field. -/
def noUpdateInput : UpdatePuzzleInput :=
  { id := "p1", emojiSequence := none, answer := none, hint := none,
    category := none, difficulty := none, language := none, isActive := none }

/-- An update request that only sets `isActive := true`. -/
def reactivateInput : UpdatePuzzleInput := { noUpdateInput with isActive := some true }

/-- The stored session produced by ending `openSession` at time 7 supplying
only `correctAnswers := 6`. -/
def overCountedSession : Session :=
  { openSession with endedAt := some 7, correctAnswers := some 6 }

/-- The stored session produced by re-ending `endedSession` at time 9. -/
def restampedSession : Session := { endedSession with endedAt := some 9 }

/-! ## Theorems -/

/-! ### Character-level and list-level lemmas for the normalizer -/

theorem char_ofNat_toNat {n : Nat} (h : n.isValidChar) : (Char.ofNat n).toNat = n := by
  unfold Char.ofNat
  rw [dif_pos h]
  unfold Char.ofNatAux Char.toNat
  simp [UInt32.toNat, BitVec.toNat_ofNatLt]

theorem char_toLower_idem (c : Char) : Char.toLower (Char.toLower c) = Char.toLower c := by
  unfold Char.toLower
  by_cases h : c.toNat ≥ 65 ∧ c.toNat ≤ 90
  · rw [if_pos h, char_ofNat_toNat (Or.inl (by omega)), if_neg (by omega)]
  · rw [if_neg h, if_neg h]

theorem not_ws_of_letterOrDigit {c : Char} (h : isLetterOrDigitChar c = true) :
    isJsWhitespace c = false := by
  simp only [isLetterOrDigitChar, Bool.or_eq_true, Bool.and_eq_true,
    decide_eq_true_eq] at h
  simp only [isJsWhitespace, Bool.or_eq_false_iff, Bool.and_eq_false_iff,
    beq_eq_false_iff_ne, ne_eq, decide_eq_false_iff_not, not_le]
  omega

theorem dropWhile_eq_self_of_forall {p : Char → Bool} {l : List Char}
    (h : ∀ c ∈ l, p c = false) : l.dropWhile p = l := by
  cases l with
  | nil => rfl
  | cons a t =>
      rw [List.dropWhile_cons, h a (List.mem_cons_self a t)]
      simp

theorem trimChars_eq_self_of_forall {l : List Char}
    (h : ∀ c ∈ l, isJsWhitespace c = false) : trimChars l = l := by
  unfold trimChars
  rw [dropWhile_eq_self_of_forall h,
    dropWhile_eq_self_of_forall (fun c hc => h c (List.mem_reverse.mp hc)),
    List.reverse_reverse]

theorem map_eq_self_of_forall {f : Char → Char} {l : List Char}
    (h : ∀ c ∈ l, f c = c) : l.map f = l := by
  induction l with
  | nil => rfl
  | cons a t ih =>
      rw [List.map_cons, h a (List.mem_cons_self a t),
        ih (fun c hc => h c (List.mem_cons_of_mem a hc))]

theorem mem_normalizeChars {l : List Char} {c : Char} (hc : c ∈ normalizeChars l) :
    isLetterOrDigitChar c = true ∧ Char.toLower c = c := by
  unfold normalizeChars at hc
  rw [List.mem_filter] at hc
  obtain ⟨hc1, halnum⟩ := hc
  rw [List.mem_filter] at hc1
  obtain ⟨hc2, _⟩ := hc1
  rw [List.mem_map] at hc2
  obtain ⟨x, _, hx⟩ := hc2
  exact ⟨halnum, by rw [← hx]; exact char_toLower_idem x⟩

theorem normalizeChars_idem (l : List Char) :
    normalizeChars (normalizeChars l) = normalizeChars l := by
  have h1 : ∀ c ∈ normalizeChars l, isLetterOrDigitChar c = true :=
    fun c hc => (mem_normalizeChars hc).1
  have h2 : ∀ c ∈ normalizeChars l, Char.toLower c = c :=
    fun c hc => (mem_normalizeChars hc).2
  have hws : ∀ c ∈ normalizeChars l, isJsWhitespace c = false :=
    fun c hc => not_ws_of_letterOrDigit (h1 c hc)
  have hfw : (normalizeChars l).filter (fun c => !isJsWhitespace c) = normalizeChars l :=
    List.filter_eq_self.mpr (by intro c hc; rw [hws c hc]; rfl)
  conv_lhs => rw [normalizeChars]
  rw [trimChars_eq_self_of_forall hws, map_eq_self_of_forall h2, hfw,
    List.filter_eq_self.mpr h1]

/-- C9: normalization is idempotent — `Normalize(Normalize(s)) = Normalize(s)`
for every string `s`, where `Normalize` trims, lowercases, strips all
whitespace, then strips every character that is not a letter or digit. -/
theorem normalizeAnswer_idem (s : String) :
    normalizeAnswer (normalizeAnswer s) = normalizeAnswer s :=
  congrArg String.mk (normalizeChars_idem s.data)

/-! ### Session lifecycle (`endPuzzleSession`) -/

/-- C6: `EndSession` on a stored session owned by the caller, with both
`totalQuestions` and `correctAnswers` supplied in the request and
`correctAnswers > totalQuestions`, fails with BAD_REQUEST (InvalidRequest) and
leaves the stored session entirely unchanged — in particular a null `endedAt`
stays null. -/
theorem endSession_overcount_badRequest {db : DB} {uid : String}
    {input : EndSessionInput} {now t c : Nat} {session : Session}
    (hres : (db.sessions.filter
      (fun s => s.id == input.sessionId && s.userId == uid)).head? = some session)
    (ht : input.totalQuestions = some t) (hc : input.correctAnswers = some c)
    (hgt : t < c) :
    endPuzzleSession db (some uid) input now = .error .badRequest ∧
    dbAfter (endPuzzleSession db (some uid) input now) db = db := by
  have hinv : endSessionInvalid input = true := by
    unfold endSessionInvalid
    rw [ht, hc]
    simpa using hgt
  have hmain : endPuzzleSession db (some uid) input now = .error .badRequest := by
    simp only [endPuzzleSession, requireUser, hres, hinv, if_true]
  exact ⟨hmain, by rw [hmain]; rfl⟩

/-- Witness for C6, the spec's scenario: `EndSession(alice, s1, total=5,
correct=6)` is rejected with BAD_REQUEST and the store is unchanged. -/
theorem endSession_overcount_badRequest_witness :
    endPuzzleSession baseDB (some "alice")
        { sessionId := "s1", totalQuestions := some 5, correctAnswers := some 6 } 7 =
      .error .badRequest ∧
    dbAfter (endPuzzleSession baseDB (some "alice")
        { sessionId := "s1", totalQuestions := some 5, correctAnswers := some 6 } 7)
      baseDB = baseDB :=
  @endSession_overcount_badRequest baseDB "alice"
    { sessionId := "s1", totalQuestions := some 5, correctAnswers := some 6 }
    7 5 6 openSession (by decide) rfl rfl (by decide)

/-- C1 (amended): the `correct ≤ total` bound is enforced on the request
counts only — whenever `EndSession` succeeds with *both* counts supplied, the
stored rows of that session satisfy `correctAnswers ≤ totalQuestions`.  (When
only a subset of the count fields is supplied, the check is skipped and the
mixed stored/request combination can violate the bound, see the
counterexample.) -/
theorem endSession_both_counts_bound {db db' : DB} {uid sid : String}
    {input : EndSessionInput} {now t c : Nat}
    (ht : input.totalQuestions = some t) (hc : input.correctAnswers = some c)
    (hok : endPuzzleSession db (some uid) input now = .ok (sid, db')) :
    c ≤ t ∧ ∀ s ∈ db'.sessions, s.id = sid →
      s.totalQuestions = some t ∧ s.correctAnswers = some c := by
  simp only [endPuzzleSession, requireUser] at hok
  split at hok
  · cases hok
  · rename_i session hres
    split at hok
    · cases hok
    · rename_i hinv
      have hle : c ≤ t := by
        unfold endSessionInvalid at hinv
        rw [ht, hc] at hinv
        simpa using hinv
      simp only [Except.ok.injEq, Prod.mk.injEq] at hok
      obtain ⟨hsid, hdb⟩ := hok
      refine ⟨hle, ?_⟩
      intro s hs hid
      rw [← hdb] at hs
      simp only [List.mem_map] at hs
      obtain ⟨x, hx, hfx⟩ := hs
      by_cases hxid : (x.id == session.id) = true
      · rw [if_pos hxid] at hfx
        rw [← hfx, ht, hc]
        simp [Option.or_some]
      · rw [if_neg hxid] at hfx
        exfalso
        rw [← hfx] at hid
        rw [hid, ← hsid] at hxid
        simp at hxid

/-- Witness for the amended C1 at a concrete input: ending the session with
`total=5, correct=5` succeeds and the stored counts satisfy the bound. -/
theorem endSession_both_counts_bound_witness :
    5 ≤ 5 ∧ ∀ s ∈ (dbAfter (endPuzzleSession baseDB (some "alice")
        { sessionId := "s1", totalQuestions := some 5, correctAnswers := some 5 } 7)
        baseDB).sessions, s.id = "s1" →
      s.totalQuestions = some 5 ∧ s.correctAnswers = some 5 :=
  @endSession_both_counts_bound baseDB
    (dbAfter (endPuzzleSession baseDB (some "alice")
      { sessionId := "s1", totalQuestions := some 5, correctAnswers := some 5 } 7) baseDB)
    "alice" "s1"
    { sessionId := "s1", totalQuestions := some 5, correctAnswers := some 5 }
    7 5 5 rfl rfl rfl

/-- Counterexample to C1 as stated: against a stored session with
`totalQuestions = 5` (and no tally), `EndSession` supplying only
`correctAnswers = 6` succeeds and stores `correctAnswers = 6 >
totalQuestions = 5`, so the invariant is not preserved by `EndSession` when
only a subset of the count fields is supplied. -/
theorem endSession_partial_breaks_invariant :
    endPuzzleSession baseDB (some "alice")
        { sessionId := "s1", totalQuestions := none, correctAnswers := some 6 } 7 =
      .ok ("s1", { baseDB with sessions := [overCountedSession] }) ∧
    overCountedSession.totalQuestions = some 5 ∧
    overCountedSession.correctAnswers = some 6 ∧ ¬ (6 ≤ 5) := by
  refine ⟨rfl, rfl, rfl, by decide⟩

/-- C2 (amended): `endedAt` is not set at most once — every successful
`EndSession` (re-)stamps `endedAt` of the stored session rows to the current
clock reading, and it leaves all other sessions untouched.  `endedAt` never
moves backward provided successive clock readings are non-decreasing, since
each stamp equals the latest reading. -/
theorem endSession_restamps_endedAt {db db' : DB} {uid sid : String}
    {input : EndSessionInput} {now : Nat}
    (hok : endPuzzleSession db (some uid) input now = .ok (sid, db')) :
    (∀ s ∈ db'.sessions, s.id = sid → s.endedAt = some now) ∧
    (∀ s ∈ db'.sessions, s.id ≠ sid → s ∈ db.sessions) := by
  simp only [endPuzzleSession, requireUser] at hok
  split at hok
  · cases hok
  · rename_i session hres
    split at hok
    · cases hok
    · simp only [Except.ok.injEq, Prod.mk.injEq] at hok
      obtain ⟨hsid, hdb⟩ := hok
      constructor
      · intro s hs hid
        rw [← hdb] at hs
        simp only [List.mem_map] at hs
        obtain ⟨x, hx, hfx⟩ := hs
        by_cases hxid : (x.id == session.id) = true
        · rw [if_pos hxid] at hfx
          rw [← hfx]
        · rw [if_neg hxid] at hfx
          exfalso
          rw [← hfx] at hid
          rw [hid, ← hsid] at hxid
          simp at hxid
      · intro s hs hid
        rw [← hdb] at hs
        simp only [List.mem_map] at hs
        obtain ⟨x, hx, hfx⟩ := hs
        by_cases hxid : (x.id == session.id) = true
        · exfalso
          rw [if_pos hxid] at hfx
          apply hid
          rw [← hfx, ← hsid]
          simpa using hxid
        · rw [if_neg hxid] at hfx
          rw [← hfx]; exact hx

/-- Witness for the amended C2: re-ending an already-ended session stamps its
`endedAt` to the new reading. -/
theorem endSession_restamps_endedAt_witness :
    (∀ s ∈ (dbAfter (endPuzzleSession endedDB (some "alice")
        { sessionId := "s1", totalQuestions := none, correctAnswers := none } 9)
        endedDB).sessions, s.id = "s1" → s.endedAt = some 9) ∧
    (∀ s ∈ (dbAfter (endPuzzleSession endedDB (some "alice")
        { sessionId := "s1", totalQuestions := none, correctAnswers := none } 9)
        endedDB).sessions, s.id ≠ "s1" → s ∈ endedDB.sessions) :=
  @endSession_restamps_endedAt endedDB
    (dbAfter (endPuzzleSession endedDB (some "alice")
      { sessionId := "s1", totalQuestions := none, correctAnswers := none } 9) endedDB)
    "alice" "s1"
    { sessionId := "s1", totalQuestions := none, correctAnswers := none }
    9 rfl

/-- Counterexample to C2 as stated: the stored session already has
`endedAt = 5`; ending it again at time 9 succeeds and changes `endedAt` to 9.
So `endedAt` is not set at most once, and an ended session is not terminal —
it still accepts scoring updates. -/
theorem endSession_restamp_counterexample :
    endedSession.endedAt = some 5 ∧
    endPuzzleSession endedDB (some "alice")
        { sessionId := "s1", totalQuestions := none, correctAnswers := none } 9 =
      .ok ("s1", { endedDB with sessions := [restampedSession] }) ∧
    restampedSession.endedAt = some 9 := by
  refine ⟨rfl, rfl, rfl⟩

/-! ### Attempt evaluator (`submitPuzzleAttempt`) -/

/-- C3: on an active puzzle attemptable by the caller (and no session
supplied), `Submit` succeeds, and its result — also stored as the new attempt
row — has `isCorrect = true` exactly when the normalized guess equals the
normalized stored answer, and `false` for every other guess. -/
theorem submit_isCorrect_iff {db : DB} {uid newId : String} {input : SubmitAttemptInput}
    {now : Nat} {puzzle : Puzzle}
    (hres : (db.puzzles.filter (fun p => p.id == input.puzzleId)).head? = some puzzle)
    (hactive : puzzle.isActive = true)
    (hforb : submitForbidden puzzle uid = false)
    (hsess : truthyStr input.sessionId = false) :
    ∃ att db', submitPuzzleAttempt db (some uid) input newId now = .ok (att, db') ∧
      (att.isCorrect = true ↔
        normalizeAnswer input.guessText = normalizeAnswer puzzle.answer) ∧
      db'.attempts = db.attempts ++ [att] := by
  have hsid : resolveSessionId db uid input.sessionId = .ok none := by
    simp only [resolveSessionId, hsess, Bool.false_eq_true, if_false]
  let att : Attempt :=
    { id := newId, sessionId := none, puzzleId := puzzle.id, userId := uid,
      guessText := input.guessText,
      isCorrect := normalizeAnswer input.guessText == normalizeAnswer puzzle.answer,
      createdAt := now }
  refine ⟨att, { db with attempts := db.attempts ++ [att] }, ?_, beq_iff_eq, rfl⟩
  simp only [submitPuzzleAttempt, requireUser, hres, hactive, hforb, hsid,
    Bool.not_true, Bool.false_eq_true, if_false]

/-- Witness for C3: alice's guess " Fast And  Furious! " against her stored
answer "fast and furious" — the attempt is accepted and scored by normalized
equality. -/
theorem submit_isCorrect_iff_witness :
    ∃ att db', submitPuzzleAttempt baseDB (some "alice")
        { puzzleId := "p1", sessionId := none, guessText := " Fast And  Furious! " }
        "a1" 3 = .ok (att, db') ∧
      (att.isCorrect = true ↔
        normalizeAnswer " Fast And  Furious! " = normalizeAnswer alicePuzzle.answer) ∧
      db'.attempts = baseDB.attempts ++ [att] :=
  @submit_isCorrect_iff baseDB "alice" "a1"
    { puzzleId := "p1", sessionId := none, guessText := " Fast And  Furious! " }
    3 alicePuzzle (by decide) rfl rfl rfl

theorem resolveSessionId_error {db : DB} {uid : String} {sid : Option String}
    {e : ActionError} (h : resolveSessionId db uid sid = .error e) :
    e = .notFound := by
  unfold resolveSessionId at h
  split at h
  · split at h
    · cases h; rfl
    · cases h
  · cases h

/-- C4 (amended): for a resolved active puzzle, `Submit` fails with FORBIDDEN
exactly when the stored owner is non-null, *non-empty*, and differs from the
caller.  JavaScript truthiness on line 299 makes an empty-string owner falsy,
so such a puzzle is attemptable by anyone, like a null-owner system puzzle;
null-owner puzzles and self-owned puzzles are attemptable. -/
theorem submit_forbidden_iff {db : DB} {uid newId : String} {input : SubmitAttemptInput}
    {now : Nat} {puzzle : Puzzle}
    (hres : (db.puzzles.filter (fun p => p.id == input.puzzleId)).head? = some puzzle)
    (hactive : puzzle.isActive = true) :
    submitPuzzleAttempt db (some uid) input newId now = .error .forbidden ↔
      ∃ o, puzzle.userId = some o ∧ o ≠ "" ∧ o ≠ uid := by
  have hforbiff : submitForbidden puzzle uid = true ↔
      ∃ o, puzzle.userId = some o ∧ o ≠ "" ∧ o ≠ uid := by
    cases hpu : puzzle.userId with
    | none => simp [submitForbidden, truthyStr, hpu]
    | some o => simp [submitForbidden, truthyStr, hpu, bne_iff_ne]
  by_cases hforb : submitForbidden puzzle uid = true
  · constructor
    · intro _; exact hforbiff.mp hforb
    · intro _
      simp only [submitPuzzleAttempt, requireUser, hres, hactive, hforb,
        Bool.not_true, Bool.false_eq_true, if_false, if_true]
  · have hf : submitForbidden puzzle uid = false := by
      simpa using hforb
    constructor
    · intro hsubmit
      exfalso
      simp only [submitPuzzleAttempt, requireUser, hres, hactive, hf,
        Bool.not_true, Bool.false_eq_true, if_false] at hsubmit
      split at hsubmit
      · rename_i e heq
        rw [resolveSessionId_error heq] at hsubmit
        simp at hsubmit
      · cases hsubmit
    · intro hex
      exact absurd (hforbiff.mpr hex) hforb

/-- Witness for the amended C4, the spec's scenario: bob submitting against
alice's puzzle is rejected with FORBIDDEN. -/
theorem submit_forbidden_iff_witness :
    (submitPuzzleAttempt baseDB (some "bob")
        { puzzleId := "p1", sessionId := none, guessText := "x" } "a1" 3 =
      .error .forbidden ↔
      ∃ o, alicePuzzle.userId = some o ∧ o ≠ "" ∧ o ≠ "bob") ∧
    submitPuzzleAttempt baseDB (some "bob")
        { puzzleId := "p1", sessionId := none, guessText := "x" } "a1" 3 =
      .error .forbidden :=
  ⟨@submit_forbidden_iff baseDB "bob" "a1"
    { puzzleId := "p1", sessionId := none, guessText := "x" } 3 alicePuzzle
    (by decide) rfl,
   (@submit_forbidden_iff baseDB "bob" "a1"
    { puzzleId := "p1", sessionId := none, guessText := "x" } 3 alicePuzzle
    (by decide) rfl).mpr ⟨"alice", rfl, by decide, by decide⟩⟩

/-- Counterexample to C4 as stated: a puzzle whose stored owner is the empty
string has a non-null owner different from the submitting user "bob", yet
`Submit` does not fail with Forbidden — it succeeds and stores the attempt,
because the truthiness test on line 299 treats `""` as falsy. -/
theorem submit_emptyOwner_not_forbidden :
    emptyOwnerPuzzle.userId = some "" ∧ emptyOwnerPuzzle.userId ≠ none ∧
    emptyOwnerPuzzle.userId ≠ some "bob" ∧ emptyOwnerPuzzle.isActive = true ∧
    submitPuzzleAttempt emptyOwnerDB (some "bob")
        { puzzleId := "p1", sessionId := none, guessText := "x" } "a1" 3 =
      .ok (emptyOwnerAttempt, { emptyOwnerDB with attempts := [emptyOwnerAttempt] }) := by
  refine ⟨rfl, by decide, by decide, rfl, rfl⟩

/-! ### Puzzle repository (`updatePuzzle`, `archivePuzzle`) -/

/-- C5: when no stored puzzle has both the requested id and the caller as
owner — i.e. the puzzle is owned by a different user or has no owner at all
(system puzzle) — both `Update` and `Deactivate` fail with NOT_FOUND and
leave the store unchanged.  Ownership is checked by strict SQL equality
(`eq(userId, user.id)`), which a null owner never satisfies, so there is no
system bypass. -/
theorem notOwned_update_archive_notFound {db : DB} {uid : String}
    {input : UpdatePuzzleInput} {now : Nat}
    (hown : ∀ p ∈ db.puzzles, p.id = input.id → p.userId ≠ some uid) :
    updatePuzzle db (some uid) input now = .error .notFound ∧
    archivePuzzle db (some uid) input.id now = .error .notFound ∧
    dbAfter (updatePuzzle db (some uid) input now) db = db ∧
    dbAfter (archivePuzzle db (some uid) input.id now) db = db := by
  have hfil : db.puzzles.filter (fun p => p.id == input.id && p.userId == some uid) = [] := by
    rw [List.filter_eq_nil_iff]
    intro p hp
    simp only [Bool.and_eq_true, beq_iff_eq, not_and]
    exact fun h1 h2 => hown p hp h1 h2
  have h1 : updatePuzzle db (some uid) input now = .error .notFound := by
    simp only [updatePuzzle, requireUser, hfil, List.head?_nil]
  have h2 : archivePuzzle db (some uid) input.id now = .error .notFound := by
    simp only [archivePuzzle, requireUser, hfil, List.head?_nil]
  exact ⟨h1, h2, by rw [h1]; rfl, by rw [h2]; rfl⟩

/-- Witness for C5: bob can neither update nor archive alice's puzzle. -/
theorem notOwned_update_archive_notFound_witness :
    updatePuzzle baseDB (some "bob") noUpdateInput 5 = .error .notFound ∧
    archivePuzzle baseDB (some "bob") noUpdateInput.id 5 = .error .notFound ∧
    dbAfter (updatePuzzle baseDB (some "bob") noUpdateInput 5) baseDB = baseDB ∧
    dbAfter (archivePuzzle baseDB (some "bob") noUpdateInput.id 5) baseDB = baseDB :=
  @notOwned_update_archive_notFound baseDB "bob" noUpdateInput 5 (by decide)

/-- C7: for an `Update` whose target resolves to a puzzle owned by the
caller: with an empty update set it fails with BAD_REQUEST and the store is
unchanged; with a non-empty update set it succeeds, the resulting puzzle has
`updatedAt = now`, and every field not present in the request retains its
prior stored value (id, owner, `isSystem` and `createdAt` are never
touched). -/
theorem update_empty_rejected_and_frame {db : DB} {uid : String}
    {input : UpdatePuzzleInput} {now : Nat} {puzzle : Puzzle}
    (hres : (db.puzzles.filter
      (fun p => p.id == input.id && p.userId == some uid)).head? = some puzzle) :
    (hasUpdates input = false →
      updatePuzzle db (some uid) input now = .error .badRequest ∧
      dbAfter (updatePuzzle db (some uid) input now) db = db) ∧
    (hasUpdates input = true →
      ∃ p' db', updatePuzzle db (some uid) input now = .ok (p', db') ∧
        p'.updatedAt = now ∧
        (input.emojiSequence = none → p'.emojiSequence = puzzle.emojiSequence) ∧
        (input.answer = none → p'.answer = puzzle.answer) ∧
        (input.hint = none → p'.hint = puzzle.hint) ∧
        (input.category = none → p'.category = puzzle.category) ∧
        (input.difficulty = none → p'.difficulty = puzzle.difficulty) ∧
        (input.language = none → p'.language = puzzle.language) ∧
        (input.isActive = none → p'.isActive = puzzle.isActive) ∧
        p'.id = puzzle.id ∧ p'.userId = puzzle.userId ∧
        p'.isSystem = puzzle.isSystem ∧ p'.createdAt = puzzle.createdAt) := by
  constructor
  · intro hno
    have h1 : updatePuzzle db (some uid) input now = .error .badRequest := by
      simp only [updatePuzzle, requireUser, hres, hno, Bool.not_false, if_true]
    exact ⟨h1, by rw [h1]; rfl⟩
  · intro hyes
    refine ⟨applyPuzzleUpdates input now puzzle,
      { db with puzzles := db.puzzles.map (fun q =>
          if q.id == puzzle.id then applyPuzzleUpdates input now q else q) },
      ?_, rfl, ?_, ?_, ?_, ?_, ?_, ?_, ?_, rfl, rfl, rfl, rfl⟩
    · simp only [updatePuzzle, requireUser, hres, hyes, Bool.not_true,
        Bool.false_eq_true, if_false]
    · intro h; simp [applyPuzzleUpdates, h]
    · intro h; simp [applyPuzzleUpdates, h]
    · intro h; simp [applyPuzzleUpdates, h]
    · intro h; simp [applyPuzzleUpdates, h]
    · intro h; simp [applyPuzzleUpdates, h]
    · intro h; simp [applyPuzzleUpdates, h]
    · intro h; simp [applyPuzzleUpdates, h]

/-- Witness for C7 (empty-update branch): alice updating her own puzzle with
no fields present is rejected with BAD_REQUEST and nothing changes. -/
theorem update_empty_rejected_and_frame_witness :
    updatePuzzle baseDB (some "alice") noUpdateInput 5 = .error .badRequest ∧
    dbAfter (updatePuzzle baseDB (some "alice") noUpdateInput 5) baseDB = baseDB :=
  (@update_empty_rejected_and_frame baseDB "alice" noUpdateInput 5 alicePuzzle
    (by decide)).1 rfl

/-- C10: `Update` does not filter its target by active state and accepts
`isActive` as an updatable field, so an inactive puzzle owned by the caller is
reactivated by `Update` with `isActive = true` (both the returned puzzle and
every stored row of that id become active) — even though `Deactivate` reports
NOT_FOUND on the same inactive puzzle. -/
theorem update_reactivates_inactive {db : DB} {uid : String} {input : UpdatePuzzleInput}
    {now : Nat} {puzzle : Puzzle}
    (hres : (db.puzzles.filter
      (fun p => p.id == input.id && p.userId == some uid)).head? = some puzzle)
    (hinactive : puzzle.isActive = false)
    (hact : input.isActive = some true) :
    (∃ p' db', updatePuzzle db (some uid) input now = .ok (p', db') ∧
      p'.isActive = true ∧ p'.id = puzzle.id ∧
      ∀ q ∈ db'.puzzles, q.id = puzzle.id → q.isActive = true) ∧
    archivePuzzle db (some uid) input.id now = .error .notFound := by
  have hyes : hasUpdates input = true := by
    simp [hasUpdates, hact]
  constructor
  · refine ⟨applyPuzzleUpdates input now puzzle,
      { db with puzzles := db.puzzles.map (fun q =>
          if q.id == puzzle.id then applyPuzzleUpdates input now q else q) },
      ?_, ?_, rfl, ?_⟩
    · simp only [updatePuzzle, requireUser, hres, hyes, Bool.not_true,
        Bool.false_eq_true, if_false]
    · simp [applyPuzzleUpdates, hact]
    · intro q hq hqid
      simp only [List.mem_map] at hq
      obtain ⟨x, hx, hfx⟩ := hq
      by_cases hxid : (x.id == puzzle.id) = true
      · rw [if_pos hxid] at hfx
        rw [← hfx]
        simp [applyPuzzleUpdates, hact]
      · rw [if_neg hxid] at hfx
        exfalso
        rw [← hfx] at hqid
        rw [hqid] at hxid
        simp at hxid
  · simp only [archivePuzzle, requireUser, hres, hinactive, Bool.not_false, if_true]

/-- Witness for C10: alice's deactivated puzzle is reactivated by `Update`
with `isActive = true`, while `Deactivate` on it reports NOT_FOUND. -/
theorem update_reactivates_inactive_witness :
    (∃ p' db', updatePuzzle inactiveDB (some "alice") reactivateInput 9 = .ok (p', db') ∧
      p'.isActive = true ∧ p'.id = inactivePuzzle.id ∧
      ∀ q ∈ db'.puzzles, q.id = inactivePuzzle.id → q.isActive = true) ∧
    archivePuzzle inactiveDB (some "alice") reactivateInput.id 9 = .error .notFound :=
  @update_reactivates_inactive inactiveDB "alice" reactivateInput 9 inactivePuzzle
    (by decide) rfl rfl

/-! ### Listing (`listMyPuzzles`) -/

theorem mem_insertByCreatedAt {p x : Puzzle} {l : List Puzzle}
    (h : p ∈ insertByCreatedAt x l) : p = x ∨ p ∈ l := by
  induction l with
  | nil => simpa [insertByCreatedAt] using h
  | cons q t ih =>
      unfold insertByCreatedAt at h
      split at h
      · simpa using h
      · rcases List.mem_cons.mp h with h1 | h2
        · exact Or.inr (by simp [h1])
        · rcases ih h2 with h3 | h4
          · exact Or.inl h3
          · exact Or.inr (List.mem_cons_of_mem q h4)

theorem mem_sortByCreatedAt {p : Puzzle} {l : List Puzzle}
    (h : p ∈ sortByCreatedAt l) : p ∈ l := by
  induction l with
  | nil => simp [sortByCreatedAt] at h
  | cons q t ih =>
      unfold sortByCreatedAt at h
      rcases mem_insertByCreatedAt h with h1 | h2
      · simp [h1]
      · exact List.mem_cons_of_mem q (ih h2)

/-- C8: every puzzle returned by `ListMyPuzzles` is owned by the calling user
and comes from the store, and when `includeInactive` is false or absent every
returned puzzle has `isActive = true`. -/
theorem listMyPuzzles_scoped_and_active {db db' : DB} {uid : String}
    {input : ListMyPuzzlesInput} {out : ListMyPuzzlesOutput} {p : Puzzle}
    (hok : listMyPuzzles db (some uid) input = .ok (out, db'))
    (hmem : p ∈ out.items) :
    p.userId = some uid ∧ p ∈ db.puzzles ∧
    (truthyBool input.includeInactive = false → p.isActive = true) := by
  simp only [listMyPuzzles, requireUser, Except.ok.injEq, Prod.mk.injEq] at hok
  obtain ⟨hout, hdb⟩ := hok
  rw [← hout] at hmem
  simp only at hmem
  have hp1 : p ∈ sortByCreatedAt (db.puzzles.filter (listWhere uid input)) :=
    List.mem_of_mem_drop (List.mem_of_mem_take hmem)
  have hp2 : p ∈ db.puzzles.filter (listWhere uid input) :=
    mem_sortByCreatedAt hp1
  rw [List.mem_filter] at hp2
  obtain ⟨hpm, hw⟩ := hp2
  simp only [listWhere, Bool.and_eq_true, beq_iff_eq] at hw
  obtain ⟨⟨⟨hw1, hw2⟩, hw3⟩, hw4⟩ := hw
  refine ⟨hw1, hpm, ?_⟩
  intro hii
  rw [hii] at hw2
  simpa using hw2

/-- Witness for C8 at a concrete listing: the default listing for alice
returns her own active puzzle. -/
theorem listMyPuzzles_scoped_and_active_witness :
    alicePuzzle.userId = some "alice" ∧ alicePuzzle ∈ baseDB.puzzles ∧
    (truthyBool (none : Option Bool) = false → alicePuzzle.isActive = true) :=
  @listMyPuzzles_scoped_and_active baseDB baseDB "alice"
    { includeInactive := none, category := none, difficulty := none,
      page := 1, pageSize := 20 }
    { items := [alicePuzzle], total := 1, page := 1 } alicePuzzle
    rfl (by simp)

end GuessTheEmoji
